import Mathlib

/-!
Verification of the persistent-data synchronization core of the
Unity_Journify repository (`MainLevel/src/scripts/PersistentDataInterface.ts`,
`DataCluster.ts`, `DataEntry.ts`, `DataAsset.ts`).

The JavaScript/TypeScript source is shallowly embedded: the in-memory JSON
document becomes an inductive `Json` tree, the `PersistentDataInterface`
instance state becomes the `SyncState` structure, and its asynchronous
methods become pure step functions driven by an explicit event trace
(`SyncEv`), where the network completion of an in-flight POST is a separate
event, as it is a separate turn of the JS event loop.
-/

set_option maxRecDepth 4000

namespace Journify

/-- A JSON value, as stored in `PersistentDataInterface.data`.
Numbers are modelled as rationals (the numeric fields of this document are
positions/rotations; their exact representation is irrelevant to the claims
about the document tree, which only compare the string `UUID` field). -/
inductive Json where
  | null
  | str (s : String)
  | num (q : ℚ)
  | bool (b : Bool)
  | arr (xs : List Json)
  | obj (fields : List (String × Json))
deriving Repr

/-- The field list of a JS object record (insertion-ordered, as in JS). -/
abbrev JFields := List (String × Json)

/-- Property lookup on a JS object: first field with the given key. -/
def objLookup : JFields → String → Option Json
  | [], _ => none
  | (k', v) :: tl, k => if k' == k then some v else objLookup tl k

/-- JS property assignment `o[k] = v`: replace the value at an existing key
in place, otherwise append the key (insertion order). Mirrors
`newData.UUID = uuid` in `updateDataRecursively`. -/
def setField : JFields → String → Json → JFields
  | [], k, v => [(k, v)]
  | (k', v') :: tl, k, v =>
      if k' == k then (k, v) :: tl else (k', v') :: setField tl k v

/-- JS object spread / `Object.assign` merge `{ ...old, ...new }`:
existing keys keep their position but take the new value when the incoming
record also has the key; keys only in the incoming record are appended in
its order. -/
def mergeFields (old new : JFields) : JFields :=
  (old.map (fun kv =>
    match objLookup new kv.1 with
    | some v => (kv.1, v)
    | none => kv))
  ++ new.filter (fun kv => !(old.any (fun kv' => kv'.1 == kv.1)))

/-- The string value of a node's `UUID` field, when the node is an object
whose `UUID` field holds a string (JS `===` between a string `uuid` and a
property value can only succeed on a string). -/
def uuidOf : Json → Option String
  | Json.obj fs =>
      match objLookup fs "UUID" with
      | some (Json.str s) => some s
      | _ => none
  | _ => none

/-- The test `item && item.UUID === uuid` / `data.UUID === uuid` from the
source: the node is an object whose `UUID` field is the string `uuid`. -/
def matchesUUID (j : Json) (uuid : String) : Bool :=
  uuidOf j == some uuid

/-- The replacement performed at the matched node: `newData.UUID = uuid`
followed by `data[i] = { ...item, ...newData }` (array branch) or
`Object.assign(data, newData)` (object branch); both yield the same merged
field list. Non-object nodes are left alone (they can never match). -/
def mergeNode (uuid : String) (newData : JFields) : Json → Json
  | Json.obj fs => Json.obj (mergeFields fs (setField newData "UUID" (Json.str uuid)))
  | j => j

mutual

/-- `PersistentDataInterface.updateDataRecursively` (lines 214-258): search
the tree depth-first for the first node whose `UUID` field equals `uuid`
and merge `newData` into it, preserving the `UUID` field; returns the
updated tree and whether a match was found. -/
def updateDataRecursively : Json → String → JFields → Json × Bool
  | Json.arr xs, uuid, newData =>
      let r := updateArrayRec xs uuid newData
      (Json.arr r.1, r.2)
  | Json.obj fs, uuid, newData =>
      if matchesUUID (Json.obj fs) uuid then
        (Json.obj (mergeFields fs (setField newData "UUID" (Json.str uuid))), true)
      else
        let r := updateFieldsRec fs uuid newData
        (Json.obj r.1, r.2)
  | j, _, _ => (j, false)

/-- The `for (let i = 0; ...)` loop of `updateDataRecursively` over an
array: check each element's `UUID` first, otherwise recurse into it, and
stop at the first success. -/
def updateArrayRec : List Json → String → JFields → List Json × Bool
  | [], _, _ => ([], false)
  | item :: tl, uuid, newData =>
      if matchesUUID item uuid then
        (mergeNode uuid newData item :: tl, true)
      else
        let r := updateDataRecursively item uuid newData
        if r.2 then (r.1 :: tl, true)
        else
          let r' := updateArrayRec tl uuid newData
          (item :: r'.1, r'.2)

/-- The `for (const key in data)` loop of `updateDataRecursively` over an
object's properties, in insertion order. -/
def updateFieldsRec : JFields → String → JFields → JFields × Bool
  | [], _, _ => ([], false)
  | (k, v) :: tl, uuid, newData =>
      let r := updateDataRecursively v uuid newData
      if r.2 then ((k, r.1) :: tl, true)
      else
        let r' := updateFieldsRec tl uuid newData
        ((k, v) :: r'.1, r'.2)

end

mutual

/-- `PersistentDataInterface.findDataRecursively` (lines 274-312): return
the first node in document order whose `UUID` field equals `uuid`. -/
def findDataRecursively : Json → String → Option Json
  | Json.arr xs, uuid => findArrayRec xs uuid
  | Json.obj fs, uuid =>
      if matchesUUID (Json.obj fs) uuid then some (Json.obj fs)
      else findFieldsRec fs uuid
  | _, _ => none

/-- Array loop of `findDataRecursively`. -/
def findArrayRec : List Json → String → Option Json
  | [], _ => none
  | item :: tl, uuid =>
      if matchesUUID item uuid then some item
      else
        match findDataRecursively item uuid with
        | some r => some r
        | none => findArrayRec tl uuid

/-- Property loop of `findDataRecursively`. -/
def findFieldsRec : JFields → String → Option Json
  | [], _ => none
  | (_, v) :: tl, uuid =>
      match findDataRecursively v uuid with
      | some r => some r
      | none => findFieldsRec tl uuid

end

mutual

/-- Semantic predicate: some node of the tree (the root included) has its
`UUID` field equal to `uuid`. Used to state the stale-id claims. -/
def existsMatch : Json → String → Bool
  | Json.arr xs, uuid => existsMatchArray xs uuid
  | Json.obj fs, uuid => matchesUUID (Json.obj fs) uuid || existsMatchFields fs uuid
  | _, _ => false

/-- `existsMatch` over the elements of an array. -/
def existsMatchArray : List Json → String → Bool
  | [], _ => false
  | x :: tl, uuid => existsMatch x uuid || existsMatchArray tl uuid

/-- `existsMatch` over the property values of an object. -/
def existsMatchFields : JFields → String → Bool
  | [], _ => false
  | (_, v) :: tl, uuid => existsMatch v uuid || existsMatchFields tl uuid

end

mutual

/-- Modelled from the spec: replace the **first** node in document order
satisfying `p` by its image under `f`, leaving every other node unchanged
("locate the corresponding node in the document tree via the same search,
and merge-replace its fields in place"; "only the first match found in
document order"). Generic in the predicate and the replacement, so that
`updateDataRecursively` can be proved to be exactly this traversal
specialised to the UUID match and the id-preserving merge. -/
def specReplaceFirst (p : Json → Bool) (f : Json → Json) : Json → Json × Bool
  | Json.arr xs =>
      let r := specReplaceFirstArray p f xs
      (Json.arr r.1, r.2)
  | Json.obj fs =>
      if p (Json.obj fs) then (f (Json.obj fs), true)
      else
        let r := specReplaceFirstFields p f fs
        (Json.obj r.1, r.2)
  | j => if p j then (f j, true) else (j, false)

/-- `specReplaceFirst` over the elements of an array. -/
def specReplaceFirstArray (p : Json → Bool) (f : Json → Json) : List Json → List Json × Bool
  | [] => ([], false)
  | x :: tl =>
      let r := specReplaceFirst p f x
      if r.2 then (r.1 :: tl, true)
      else
        let r' := specReplaceFirstArray p f tl
        (x :: r'.1, r'.2)

/-- `specReplaceFirst` over the property values of an object. -/
def specReplaceFirstFields (p : Json → Bool) (f : Json → Json) : JFields → JFields × Bool
  | [] => ([], false)
  | (k, v) :: tl =>
      let r := specReplaceFirst p f v
      if r.2 then ((k, r.1) :: tl, true)
      else
        let r' := specReplaceFirstFields p f tl
        ((k, v) :: r'.1, r'.2)

end

/-! ## The sync-engine state machine (`PersistentDataInterface`) -/

/-- Minimum time between saves: `saveDebounceMs = 2000` (line 26). -/
def saveDebounceMs : Nat := 2000

/-- Maximum time to buffer changes: `maxBufferTime = 10000` (line 27). -/
def maxBufferTime : Nat := 10000

/-- The timeout used by `markObjectChanged` (line 171):
`Math.min(maxBufferTime, Math.max(saveDebounceMs * 2, 5000))`. -/
def bufferWindowMs : Nat := min maxBufferTime (max (saveDebounceMs * 2) 5000)

/-- JS `Set.add`: insert if absent, keeping insertion order. -/
def insertUniq (u : String) (l : List String) : List String :=
  if l.contains u then l else l ++ [u]

/-- The mutable fields of a `PersistentDataInterface` instance.
`bufferTimer` holds the absolute wall-clock time at which the scheduled
`setTimeout` callback fires (the handle itself carries no other
information); `savingStart` is the `now` captured at line 101 by the save
whose POST is currently in flight (meaningful only while `isSaving`). -/
structure SyncState where
  isLoaded : Bool
  pendingChanges : Bool
  changedObjects : List String
  lastSaveTime : Nat
  bufferTimer : Option Nat
  isSaving : Bool
  savingStart : Nat
  data : Json
  registered : List String
deriving Repr

/-- The synchronous prefix of `saveData` (lines 84-121 and 126-134), run
at wall-clock time `now` with the `force` argument. Returns the new state,
`some now` when a POST of the document is issued at `now`, and the value
the returned promise resolves to right away (`none` when the outcome is
decided later by the network completion). -/
def saveDataSync (s : SyncState) (force : Bool) (now : Nat) :
    SyncState × Option Nat × Option Bool :=
  if !s.isLoaded then (s, none, some false)
  else if s.isSaving then (s, none, some true)
  else if !s.pendingChanges || s.changedObjects.isEmpty then (s, none, some true)
  else if force = false ∧ now - s.lastSaveTime < saveDebounceMs then
    (if s.bufferTimer = none then
        { s with bufferTimer := some (now + saveDebounceMs) }
      else s,
     none, some true)
  else
    ({ s with bufferTimer := none, isSaving := true, savingStart := now },
     some now, none)

/-- `markObjectChanged` (lines 156-177) at wall-clock time `now`. -/
def markObjectChangedM (s : SyncState) (u : String) (now : Nat) :
    SyncState × Option Nat :=
  if !s.isLoaded then (s, none)
  else
    let s1 := { s with changedObjects := insertUniq u s.changedObjects,
                       pendingChanges := true }
    if 10 ≤ s1.changedObjects.length then
      let r := saveDataSync s1 false now
      (r.1, r.2.1)
    else if s1.bufferTimer = none then
      ({ s1 with bufferTimer := some (now + bufferWindowMs) }, none)
    else (s1, none)

/-- `updateObjectData` (lines 195-211): `rec` is the record returned by the
registered entity's `getSerializableData()` at this moment. -/
def updateObjectDataM (s : SyncState) (u : String) (rec : JFields) (now : Nat) :
    SyncState × Option Nat :=
  if !s.isLoaded then (s, none)
  else if !(s.registered.contains u) then (s, none)
  else
    let r := updateDataRecursively s.data u rec
    let s1 := { s with data := r.1 }
    if r.2 then markObjectChangedM s1 u now else (s1, none)

/-- `getObjectData` (lines 261-271): root fast path, then recursive search. -/
def getObjectDataM (s : SyncState) (u : String) : Option Json :=
  if !s.isLoaded then none
  else if matchesUUID s.data u then some s.data
  else findDataRecursively s.data u

/-- One event-loop turn acting on the sync engine. `save`, `mark`,
`update`, `register`, `unregister` and `dispose` are the public calls;
`timer` is the firing of the `bufferTimer` `setTimeout` callback (lines
105-108 / 172-175), `autoTick` the auto-save `setInterval` callback (lines
50-55), `net` the completion of the in-flight POST (resumption at line
136 or 148), and `load` an entire `loadData` call with its GET outcome. -/
inductive SyncEv where
  | save (force : Bool) (now : Nat)
  | mark (u : String) (now : Nat)
  | update (u : String) (rec : JFields) (now : Nat)
  | timer (now : Nat)
  | net (ok : Bool) (now : Nat)
  | load (doc : Json) (ok : Bool) (now : Nat)
  | register (u : String)
  | unregister (u : String)
  | autoTick (now : Nat)
  | dispose (now : Nat)

/-- Step the sync engine by one event. Returns the new state, `some t`
when a POST was issued at time `t`, and whether an in-flight POST
completed during this event. -/
def syncStep (s : SyncState) (e : SyncEv) : SyncState × Option Nat × Bool :=
  match e with
  | SyncEv.save force now =>
      let r := saveDataSync s force now
      (r.1, r.2.1, false)
  | SyncEv.mark u now =>
      let r := markObjectChangedM s u now
      (r.1, r.2, false)
  | SyncEv.update u rec now =>
      let r := updateObjectDataM s u rec now
      (r.1, r.2, false)
  | SyncEv.timer now =>
      if s.bufferTimer = some now then
        let r := saveDataSync { s with bufferTimer := none } true now
        (r.1, r.2.1, false)
      else (s, none, false)
  | SyncEv.net ok _ =>
      if s.isSaving then
        if ok then
          ({ s with pendingChanges := false, changedObjects := [],
                    lastSaveTime := s.savingStart, isSaving := false },
           none, true)
        else ({ s with isSaving := false }, none, true)
      else (s, none, false)
  | SyncEv.load doc ok _ =>
      if ok then
        ({ s with data := doc, isLoaded := true, pendingChanges := false,
                  changedObjects := [] },
         none, false)
      else (s, none, false)
  | SyncEv.register u =>
      ({ s with registered := insertUniq u s.registered }, none, false)
  | SyncEv.unregister u =>
      ({ s with registered := s.registered.erase u,
                changedObjects := s.changedObjects.erase u },
       none, false)
  | SyncEv.autoTick now =>
      if s.pendingChanges = true ∧ s.isSaving = false then
        let r := saveDataSync s false now
        (r.1, r.2.1, false)
      else (s, none, false)
  | SyncEv.dispose now =>
      let r := if s.pendingChanges then saveDataSync s true now else (s, none, none)
      ({ r.1 with bufferTimer := none, registered := [],
                  changedObjects := [], pendingChanges := false },
       r.2.1, false)

/-- The times of all POSTs issued along a trace of events. -/
def postTimes : SyncState → List SyncEv → List Nat
  | _, [] => []
  | s, e :: tl =>
      let r := syncStep s e
      r.2.1.toList ++ postTimes r.1 tl

/-- The number of POST completions processed along a trace. -/
def numComps : SyncState → List SyncEv → Nat
  | _, [] => 0
  | s, e :: tl =>
      let r := syncStep s e
      (if r.2.2 then 1 else 0) + numComps r.1 tl

/-- The state after running a whole trace of events. -/
def runEnd : SyncState → List SyncEv → SyncState
  | s, [] => s
  | s, e :: tl => runEnd (syncStep s e).1 tl

/-! ## Entry selection (`DataCluster.handleEntrySelected`,
`DataEntry.handleSelectionChanged`)

A cluster's entries are modelled by the list of their `_isActive` flags;
the entry an event originates from is identified by its index. -/

/-- The loop of `DataCluster.handleEntrySelected` (lines 112-118): set
`entry.isActive = false` on every entry other than the selected one
(index `i`). The source guards the assignment with `entry.isActive`, which
only avoids a redundant write. -/
def deactivateOthers : List Bool → Nat → List Bool
  | [], _ => []
  | a :: tl, 0 => a :: tl.map (fun _ => false)
  | _ :: tl, Nat.succ n => false :: deactivateOthers tl n

/-- `DataCluster.handleEntrySelected` (lines 105-120) on the active flags:
on a selection, deactivate all other entries; on a deselection, no entry
state changes (the persistence call does not touch `isActive`). -/
def handleEntrySelected (entries : List Bool) (i : Nat) (isSelected : Bool) : List Bool :=
  if isSelected then deactivateOthers entries i else entries

/-- `DataEntry.handleSelectionChanged` (lines 256-268): the entry first
invokes `onSelected` — handled synchronously by the owning cluster's
`handleEntrySelected` — and then sets its own `isActive` to the event's
state (the source's inequality guard only skips a write of the value
already held, so a plain `List.set` is extensionally the same). -/
def handleSelectionChanged (entries : List Bool) (i : Nat) (isSelected : Bool) : List Bool :=
  (handleEntrySelected entries i isSelected).set i isSelected

/-! ## Transform round trip (`DataAsset`) -/

/-- The exact rational value of the IEEE-754 double `Math.PI`
(`884279719003555 * 2 ^ -48`). Number arithmetic is modelled exactly over
`ℚ`, so the two conversion factors `Math.PI / 180` and `180 / Math.PI`
built from this one constant are exact inverses of each other. -/
def mathPi : ℚ := 884279719003555 / 281474976710656

/-- A three.js-style vector. Components live in `ℚ` (exact arithmetic on
the values the program manipulates). -/
structure Vec3 where
  x : ℚ
  y : ℚ
  z : ℚ
deriving DecidableEq, Repr

/-- `DataAsset.transformData`: the wire-format transform (`position`,
`rotation` in degrees, `scale`; the scale is tracked but not saved to
JSON). -/
structure AssetTransformData where
  position : Vec3
  rotation : Vec3
  scale : Vec3
deriving DecidableEq, Repr

/-- The live scene object's transform (`this.instance`): `rotation` in
radians. -/
structure AssetInstance where
  position : Vec3
  rotation : Vec3
  scale : Vec3
deriving DecidableEq, Repr

/-- `DataAsset.updateInstanceFromTransformData` (lines 226-253): apply the
wire transform to the live instance, converting each rotation component
from degrees to radians by `* (Math.PI / 180)`. -/
def updateInstanceFromTransformData (td : AssetTransformData) : AssetInstance :=
  { position := td.position
    rotation :=
      { x := td.rotation.x * (mathPi / 180)
        y := td.rotation.y * (mathPi / 180)
        z := td.rotation.z * (mathPi / 180) }
    scale := td.scale }

/-- `DataAsset.updateTransformDataFromInstance` (lines 201-223): capture
the live transform back into wire format, converting each rotation
component from radians to degrees by `* (180 / Math.PI)`. -/
def updateTransformDataFromInstance (inst : AssetInstance) : AssetTransformData :=
  { position := inst.position
    rotation :=
      { x := inst.rotation.x * (180 / mathPi)
        y := inst.rotation.y * (180 / mathPi)
        z := inst.rotation.z * (180 / mathPi) }
    scale := inst.scale }

/-! ## Concrete states and traces used in the claims -/

/-- A loaded engine with a save in flight that started at time 100. -/
def inFlightState : SyncState :=
  { isLoaded := true, pendingChanges := true, changedObjects := ["u"],
    lastSaveTime := 0, bufferTimer := none, isSaving := true, savingStart := 100,
    data := Json.null, registered := [] }

/-- A loaded engine with one pending change and no save in flight. -/
def pendingState : SyncState :=
  { isLoaded := true, pendingChanges := true, changedObjects := ["u"],
    lastSaveTime := 0, bufferTimer := none, isSaving := false, savingStart := 0,
    data := Json.null, registered := [] }

/-- A loaded engine whose last (instantaneously completed) save finished
at time `t`, with one pending change and no timer scheduled. -/
def debounceState (t : Nat) : SyncState :=
  { isLoaded := true, pendingChanges := true, changedObjects := ["u"],
    lastSaveTime := t, bufferTimer := none, isSaving := false, savingStart := t,
    data := Json.null, registered := [] }

/-- A freshly loaded engine: nothing dirty, no timers, `lastSaveTime = 0`. -/
def freshLoadedState : SyncState :=
  { isLoaded := true, pendingChanges := false, changedObjects := [],
    lastSaveTime := 0, bufferTimer := none, isSaving := false, savingStart := 0,
    data := Json.null, registered := [] }

/-- Ten `markObjectChanged` calls with distinct ids, all at time 1000. -/
def tenMarks : List SyncEv :=
  ["a", "b", "c", "d", "e", "f", "g", "h", "i", "j"].map
    (fun u => SyncEv.mark u 1000)

/-- A loaded engine with nine dirty ids, a scheduled buffer timer, and the
debounce window elapsed. -/
def nineDirtyState : SyncState :=
  { isLoaded := true, pendingChanges := true,
    changedObjects := ["a", "b", "c", "d", "e", "f", "g", "h", "i"],
    lastSaveTime := 0, bufferTimer := some 5500, isSaving := false,
    savingStart := 0, data := Json.null, registered := [] }

/-- The flush times produced by marking every 500 ms for 30 s. -/
def flushTimes : List Nat := [5000, 10500, 16000, 21500, 27000]

/-- The scenario trace: `markObjectChanged` on one entity every 500 ms
from 0 to 29500 ms; each scheduled buffer timer fires at its time and each
POST completes successfully immediately. -/
def continuousMarkTrace : List SyncEv :=
  ((List.range 60).map (fun k =>
    let t := 500 * k
    SyncEv.mark "u" t ::
      (if flushTimes.contains t then [SyncEv.timer t, SyncEv.net true t]
       else []))).flatten

/-- A sync engine that has never completed a `loadData`. -/
def unloadedState : SyncState :=
  { isLoaded := false, pendingChanges := false, changedObjects := [],
    lastSaveTime := 0, bufferTimer := none, isSaving := false, savingStart := 0,
    data := Json.null, registered := ["u"] }

/-- A loaded engine whose document holds a root node and one cluster, and
whose registry knows the id `ghost`, which occurs nowhere in the document. -/
def smallDocState : SyncState :=
  { freshLoadedState with
      data := Json.obj
        [("UUID", Json.str "root"),
         ("DataClusters", Json.arr [Json.obj [("UUID", Json.str "c1")]])],
      registered := ["ghost"] }

/-! ## Helper lemmas for the selection invariant -/

lemma count_true_map_false (l : List Bool) :
    (l.map (fun _ => false)).count true = 0 := by
  induction l with
  | nil => rfl
  | cons a tl ih => simpa using ih

lemma count_true_replicate (n : Nat) :
    (List.replicate n false).count true = 0 := by
  induction n with
  | zero => rfl
  | succ m ih => simpa using ih

lemma count_true_deactivateOthers_set (es : List Bool) (i : Nat) (v : Bool) :
    ((deactivateOthers es i).set i v).count true ≤ 1 := by
  induction es generalizing i with
  | nil => simp [deactivateOthers]
  | cons a tl ih =>
      cases i with
      | zero =>
          simp [deactivateOthers, count_true_map_false, count_true_replicate]
          cases v <;> simp [count_true_replicate]
      | succ n =>
          simpa [deactivateOthers] using ih n

lemma count_true_set_false_le (es : List Bool) (i : Nat) :
    (es.set i false).count true ≤ es.count true := by
  induction es generalizing i with
  | nil => simp
  | cons a tl ih =>
      cases i with
      | zero => cases a <;> simp
      | succ n =>
          cases a <;> simpa using ih n

lemma count_true_handleSelectionChanged (es : List Bool) (i : Nat) (sel : Bool)
    (h : es.count true ≤ 1) :
    (handleSelectionChanged es i sel).count true ≤ 1 := by
  cases sel with
  | true =>
      unfold handleSelectionChanged handleEntrySelected
      simpa using count_true_deactivateOthers_set es i true
  | false =>
      unfold handleSelectionChanged handleEntrySelected
      simpa using le_trans (count_true_set_false_le es i) h

lemma count_true_foldl_toggles (evs : List (Nat × Bool)) :
    ∀ es : List Bool, es.count true ≤ 1 →
      (evs.foldl (fun es ev => handleSelectionChanged es ev.1 ev.2) es).count true ≤ 1 := by
  induction evs with
  | nil => intro es h; simpa using h
  | cons ev tl ih =>
      intro es h
      exact ih _ (count_true_handleSelectionChanged es ev.1 ev.2 h)

lemma count_true_deactivate_set_eraseIdx (es : List Bool) (i : Nat) :
    (((deactivateOthers es i).set i true).eraseIdx i).count true = 0 := by
  induction es generalizing i with
  | nil => simp [deactivateOthers]
  | cons a tl ih =>
      cases i with
      | zero =>
          simp [deactivateOthers, count_true_map_false, count_true_replicate]
      | succ n => simpa [deactivateOthers] using ih n

lemma count_true_select_eraseIdx (es : List Bool) (i : Nat) :
    ((handleSelectionChanged es i true).eraseIdx i).count true = 0 := by
  unfold handleSelectionChanged handleEntrySelected
  simp only [eq_self_iff_true, if_true]
  exact count_true_deactivate_set_eraseIdx es i

/-- C2: for every Cluster, after any sequence of selection-toggle events on
its Entries (each handled to completion: the cluster's `handleEntrySelected`
runs synchronously inside the entry's `handleSelectionChanged` before the
entry updates its own flag), at most one Entry has `isActive = true`;
moreover, right after a selection event every entry other than the selected
one is inactive. -/
theorem cluster_single_active_invariant :
    (∀ (evs : List (Nat × Bool)) (n : Nat),
        (evs.foldl (fun es ev => handleSelectionChanged es ev.1 ev.2)
            (List.replicate n false)).count true ≤ 1)
    ∧ (∀ (es : List Bool) (i : Nat),
        ((handleSelectionChanged es i true).eraseIdx i).count true = 0) := by
  constructor
  · intro evs n
    apply count_true_foldl_toggles
    simp [count_true_replicate]
  · exact count_true_select_eraseIdx

/-! ## Accounting of POSTs in flight -/

lemma saveDataSync_balance (s : SyncState) (f : Bool) (now : Nat) :
    (if ((saveDataSync s f now).2.1).isSome then 1 else 0)
        + (if s.isSaving then 1 else 0)
      = (if (saveDataSync s f now).1.isSaving then 1 else 0) := by
  unfold saveDataSync
  cases hL : s.isLoaded
  · simp [hL]
  · cases hS : s.isSaving
    · simp only [hL, hS, Bool.not_true, Bool.false_eq_true, if_false]
      split_ifs <;> simp_all
    · simp [hL, hS]

lemma markObjectChangedM_balance (s : SyncState) (u : String) (now : Nat) :
    (if ((markObjectChangedM s u now).2).isSome then 1 else 0)
        + (if s.isSaving then 1 else 0)
      = (if (markObjectChangedM s u now).1.isSaving then 1 else 0) := by
  cases hL : s.isLoaded
  · simp [markObjectChangedM, hL]
  · simp only [markObjectChangedM, hL, Bool.not_true, Bool.false_eq_true, if_false]
    split
    · exact saveDataSync_balance _ false now
    · split <;> simp

lemma updateObjectDataM_balance (s : SyncState) (u : String) (rec : JFields) (now : Nat) :
    (if ((updateObjectDataM s u rec now).2).isSome then 1 else 0)
        + (if s.isSaving then 1 else 0)
      = (if (updateObjectDataM s u rec now).1.isSaving then 1 else 0) := by
  cases hL : s.isLoaded
  · simp [updateObjectDataM, hL]
  · simp only [updateObjectDataM, hL, Bool.not_true, Bool.false_eq_true, if_false]
    split
    · simp
    · split
      · exact markObjectChangedM_balance _ u now
      · simp

/-- Each event issues a POST only from a state with no POST in flight, and
a completion only from a state with one in flight: the in-flight count
(0 or 1, tracked by `isSaving`) is balanced by every step. -/
lemma syncStep_balance (s : SyncState) (e : SyncEv) :
    (if ((syncStep s e).2.1).isSome then 1 else 0) + (if s.isSaving then 1 else 0)
      = (if (syncStep s e).2.2 then 1 else 0)
        + (if (syncStep s e).1.isSaving then 1 else 0) := by
  cases e with
  | save f now => simpa [syncStep] using saveDataSync_balance s f now
  | mark u now => simpa [syncStep] using markObjectChangedM_balance s u now
  | update u rec now => simpa [syncStep] using updateObjectDataM_balance s u rec now
  | timer now =>
      simp only [syncStep]
      split
      · simpa using saveDataSync_balance { s with bufferTimer := none } true now
      · simp
  | net ok now =>
      simp only [syncStep]
      by_cases hS : s.isSaving = true
      · cases ok <;> simp [hS]
      · simp [hS]
  | load doc ok now =>
      simp only [syncStep]
      split <;> simp
  | register u => simp [syncStep]
  | unregister u => simp [syncStep]
  | autoTick now =>
      simp only [syncStep]
      split
      · simpa using saveDataSync_balance s false now
      · simp
  | dispose now =>
      simp only [syncStep]
      by_cases hP : s.pendingChanges = true
      · simpa [hP] using saveDataSync_balance s true now
      · simp [hP]

/-- Along any trace, POSTs issued plus the initial in-flight count equal
completions processed plus the final in-flight count. -/
lemma postTimes_length_balance (evs : List SyncEv) :
    ∀ s : SyncState,
      (postTimes s evs).length + (if s.isSaving then 1 else 0)
        = numComps s evs + (if (runEnd s evs).isSaving then 1 else 0) := by
  induction evs with
  | nil => intro s; simp [postTimes, numComps, runEnd]
  | cons e tl ih =>
      intro s
      have hb := syncStep_balance s e
      have hi := ih (syncStep s e).1
      simp only [postTimes, numComps, runEnd, List.length_append]
      have hlen : ((syncStep s e).2.1.toList).length
          = if ((syncStep s e).2.1).isSome then 1 else 0 := by
        cases (syncStep s e).2.1 <;> simp
      omega

/-- C1: at most one POST of the document is ever in flight. A `saveData`
call made while a save is in flight (`isSaving`) returns success
immediately, issues no POST and changes nothing; and along every event
trace the number of POSTs issued never exceeds the number of completed
POSTs plus one, so a new POST can only start after the previous one has
completed (successfully or not). -/
theorem saveData_at_most_one_inflight :
    (∀ (s : SyncState) (force : Bool) (now : Nat),
        s.isLoaded = true → s.isSaving = true →
          saveDataSync s force now = (s, none, some true))
    ∧ (∀ (s : SyncState) (evs : List SyncEv),
        (postTimes s evs).length + (if s.isSaving then 1 else 0)
          = numComps s evs + (if (runEnd s evs).isSaving then 1 else 0))
    ∧ (∀ (s : SyncState) (evs : List SyncEv),
        (postTimes s evs).length ≤ numComps s evs + 1) := by
  refine ⟨?_, ?_, ?_⟩
  · intro s force now hL hS
    simp [saveDataSync, hL, hS]
  · intro s evs
    exact postTimes_length_balance evs s
  · intro s evs
    have h := postTimes_length_balance evs s
    have h1 : (if s.isSaving then 1 else 0) ≤ 1 := by split <;> omega
    have h2 : (if (runEnd s evs).isSaving then 1 else 0) ≤ 1 := by split <;> omega
    omega


theorem saveData_at_most_one_inflight_witness :
    inFlightState.isLoaded = true ∧ inFlightState.isSaving = true
    ∧ saveDataSync inFlightState false 7000 = (inFlightState, none, some true) := by
  have h := saveData_at_most_one_inflight
  exact ⟨rfl, rfl, h.1 inFlightState false 7000 rfl rfl⟩

/-! ## Save outcome handling -/

/-- C6 (amended): on a successful POST completion the dirty set and the
pending flag are cleared and `lastSaveTime` is set to the time the save
attempt **began** (the `Date.now()` captured before the network await),
not the completion time; on a failed completion the dirty set, pending
flag and `lastSaveTime` are all left intact. -/
theorem save_completion_state_update :
    ∀ (s : SyncState) (now : Nat),
      s.isSaving = true →
        syncStep s (SyncEv.net true now)
          = ({ s with pendingChanges := false, changedObjects := [],
                      lastSaveTime := s.savingStart, isSaving := false },
             none, true)
        ∧ syncStep s (SyncEv.net false now)
          = ({ s with isSaving := false }, none, true) := by
  intro s now hS
  constructor <;> simp [syncStep, hS]


/-- C6 counterexample: a forced save starts at time 100 and its network
write completes successfully at time 5000, yet `lastSaveTime` afterwards
is 100, not the completion time 5000 — refuting "records the completion
time". -/
theorem save_success_records_start_time_counterexample :
    postTimes pendingState [SyncEv.save true 100, SyncEv.net true 5000] = [100]
    ∧ (runEnd pendingState [SyncEv.save true 100, SyncEv.net true 5000]).lastSaveTime = 100
    ∧ (100 : Nat) ≠ 5000 := by
  refine ⟨rfl, rfl, by decide⟩

theorem save_completion_state_update_witness :
    inFlightState.isSaving = true
    ∧ syncStep inFlightState (SyncEv.net true 5000)
        = ({ inFlightState with
              pendingChanges := false, changedObjects := [],
              lastSaveTime := inFlightState.savingStart, isSaving := false },
           none, true)
    ∧ syncStep inFlightState (SyncEv.net false 5000)
        = ({ inFlightState with isSaving := false }, none, true) := by
  have h := save_completion_state_update inFlightState 5000 rfl
  exact ⟨rfl, h.1, h.2⟩

/-! ## Debounce deferral -/


/-- C4 counterexample: with the debounce window `D = 2000` and a save
completed at `T = 0`, calling `saveData(force=false)` at `T + D/2 = 1000`
issues no POST and schedules the deferred forced save for time 3000
(`D` after the call); the deferred POST happens at 3000, which is **not**
no later than `T + D = 2000`. -/
theorem debounce_deferred_write_late_counterexample :
    postTimes (debounceState 0) [SyncEv.save false 1000] = []
    ∧ (runEnd (debounceState 0) [SyncEv.save false 1000]).bufferTimer = some 3000
    ∧ postTimes (debounceState 0) [SyncEv.save false 1000, SyncEv.timer 3000] = [3000]
    ∧ ¬(3000 ≤ 2000) := by
  refine ⟨rfl, rfl, rfl, by decide⟩

/-- C4 (amended): a `saveData(force=false)` call at `T + D/2` inside the
debounce window issues no POST (none happens before `T + D`), schedules
the deferred forced save `D` after the **call**, and the deferred POST is
issued when that timer fires at `T + 3D/2` — not by `T + D`. -/
theorem debounce_deferred_write_schedule :
    ∀ T : Nat,
      postTimes (debounceState T) [SyncEv.save false (T + 1000)] = []
      ∧ (runEnd (debounceState T) [SyncEv.save false (T + 1000)]).bufferTimer
          = some (T + 3000)
      ∧ postTimes (debounceState T)
          [SyncEv.save false (T + 1000), SyncEv.timer (T + 3000)] = [T + 3000] := by
  intro T
  have hdelta : T + 1000 - T = 1000 := by omega
  have hsum : T + 1000 + saveDebounceMs = T + 3000 := by
    unfold saveDebounceMs; omega
  refine ⟨?_, ?_, ?_⟩ <;>
    simp [postTimes, runEnd, syncStep, saveDataSync, debounceState, hdelta, hsum,
          saveDebounceMs]

/-! ## Size-threshold flush -/


/-- C5 counterexample: ten distinct ids are marked at time 1000, within
the debounce window of the (initial) last save time 0. The dirty set
reaches the threshold of 10, `saveData()` is invoked — but no POST is
issued: the unforced save is swallowed by the debounce guard, and the
flush stays deferred to the buffer timer at 6000. -/
theorem size_flush_deferred_counterexample :
    (runEnd freshLoadedState tenMarks).changedObjects.length = 10
    ∧ postTimes freshLoadedState tenMarks = []
    ∧ (runEnd freshLoadedState tenMarks).bufferTimer = some 6000 := by
  refine ⟨rfl, rfl, rfl⟩

/-- C5 (amended): when a `markObjectChanged` call brings the dirty set to
10 or more ids, `saveData()` is invoked immediately; the POST is issued at
once — regardless of any scheduled buffer timer — provided no save is in
flight and the debounce window since the last save has elapsed (otherwise
the attempt is deferred by those guards, as the counterexample shows). -/
theorem size_threshold_triggers_save_attempt :
    ∀ (s : SyncState) (u : String) (now : Nat),
      s.isLoaded = true → s.isSaving = false →
      10 ≤ (insertUniq u s.changedObjects).length →
      s.lastSaveTime + saveDebounceMs ≤ now →
        markObjectChangedM s u now
          = ({ s with changedObjects := insertUniq u s.changedObjects,
                      pendingChanges := true, bufferTimer := none,
                      isSaving := true, savingStart := now }, some now) := by
  intro s u now hL hS hlen helapsed
  have hne : (insertUniq u s.changedObjects).isEmpty = false := by
    cases h : insertUniq u s.changedObjects with
    | nil => rw [h] at hlen; simp at hlen
    | cons a tl => simp [List.isEmpty]
  have hdeb : ¬(now - s.lastSaveTime < saveDebounceMs) := by omega
  simp [markObjectChangedM, saveDataSync, hL, hS, hlen, hne, hdeb]


theorem size_threshold_triggers_save_attempt_witness :
    10 ≤ (insertUniq "j" nineDirtyState.changedObjects).length
    ∧ nineDirtyState.lastSaveTime + saveDebounceMs ≤ 2500
    ∧ markObjectChangedM nineDirtyState "j" 2500
        = ({ nineDirtyState with
              changedObjects := insertUniq "j" nineDirtyState.changedObjects,
              pendingChanges := true, bufferTimer := none,
              isSaving := true, savingStart := 2500 }, some 2500) := by
  refine ⟨by decide, by decide, ?_⟩
  exact size_threshold_triggers_save_attempt nineDirtyState "j" 2500 rfl rfl
    (by decide) (by decide)

/-! ## Buffer-window guarantee -/


/-- C9: with the maximum buffer window constant at 10000 ms (effective
buffer timeout `min 10000 (max 4000 5000) = 5000` ms), continuous marks
every 500 ms for 30 s produce POSTs at 5000, 10500, 16000, 21500 and
27000 ms — at least 3 actual network writes in the period. -/
theorem buffer_window_at_least_three_posts :
    maxBufferTime = 10000
    ∧ postTimes freshLoadedState continuousMarkTrace = flushTimes
    ∧ 3 ≤ (postTimes freshLoadedState continuousMarkTrace).length := by
  refine ⟨rfl, by decide, by decide⟩

/-! ## Operations before a successful load -/

/-- C10: before any successful `loadData`, every public operation is
inert: `saveData` returns `false` without POSTing (not the no-op success
of the no-pending-changes case), `markObjectChanged` and
`updateObjectData` change nothing, and `getObjectData` returns `null`. -/
theorem unloaded_operations_inert :
    ∀ (s : SyncState) (force : Bool) (u : String) (rec : JFields) (now : Nat),
      s.isLoaded = false →
        saveDataSync s force now = (s, none, some false)
        ∧ markObjectChangedM s u now = (s, none)
        ∧ updateObjectDataM s u rec now = (s, none)
        ∧ getObjectDataM s u = none := by
  intro s force u rec now h
  refine ⟨?_, ?_, ?_, ?_⟩ <;>
    simp [saveDataSync, markObjectChangedM, updateObjectDataM, getObjectDataM, h]


theorem unloaded_operations_inert_witness :
    unloadedState.isLoaded = false
    ∧ saveDataSync unloadedState true 9 = (unloadedState, none, some false)
    ∧ markObjectChangedM unloadedState "u" 9 = (unloadedState, none)
    ∧ updateObjectDataM unloadedState "u" [] 9 = (unloadedState, none)
    ∧ getObjectDataM unloadedState "u" = none := by
  have h := unloaded_operations_inert unloadedState true "u" [] 9 rfl
  exact ⟨rfl, h.1, h.2.1, h.2.2.1, h.2.2.2⟩

/-! ## The degrees-radians round trip -/

/-- C8: loading converts wire rotations from degrees to radians
(`* Math.PI / 180`) and serializing converts back (`* 180 / Math.PI`); on
exact number semantics the round trip is the identity, so for position
`[1.5, 2.0, -3.25]` and rotation `[0, 90, 180]` the serialized output
matches the input within `1e-6` in every component. -/
theorem transform_round_trip :
    (∀ td : AssetTransformData,
        updateTransformDataFromInstance (updateInstanceFromTransformData td) = td)
    ∧ ((updateTransformDataFromInstance (updateInstanceFromTransformData
          ⟨⟨1.5, 2.0, -3.25⟩, ⟨0, 90, 180⟩, ⟨1, 1, 1⟩⟩)).position
            = ⟨1.5, 2.0, -3.25⟩
       ∧ |(updateTransformDataFromInstance (updateInstanceFromTransformData
            ⟨⟨1.5, 2.0, -3.25⟩, ⟨0, 90, 180⟩, ⟨1, 1, 1⟩⟩)).rotation.x - 0|
              ≤ 1 / 1000000
       ∧ |(updateTransformDataFromInstance (updateInstanceFromTransformData
            ⟨⟨1.5, 2.0, -3.25⟩, ⟨0, 90, 180⟩, ⟨1, 1, 1⟩⟩)).rotation.y - 90|
              ≤ 1 / 1000000
       ∧ |(updateTransformDataFromInstance (updateInstanceFromTransformData
            ⟨⟨1.5, 2.0, -3.25⟩, ⟨0, 90, 180⟩, ⟨1, 1, 1⟩⟩)).rotation.z - 180|
              ≤ 1 / 1000000) := by
  have hpi : mathPi ≠ 0 := by norm_num [mathPi]
  have hq : ∀ q : ℚ, q * (mathPi / 180) * (180 / mathPi) = q := by
    intro q; field_simp
  have hgen : ∀ td : AssetTransformData,
      updateTransformDataFromInstance (updateInstanceFromTransformData td) = td := by
    intro td
    obtain ⟨p, ⟨rx, ry, rz⟩, sc⟩ := td
    simp [updateInstanceFromTransformData, updateTransformDataFromInstance, hq]
  refine ⟨hgen, ?_⟩
  rw [hgen]
  norm_num

/-! ## Structure of the document update: first match only, id preserved -/

/-- Induction over `Json` with pointwise hypotheses for array elements and
object field values. -/
theorem Json.inductOn {P : Json → Prop}
    (hnull : P Json.null) (hstr : ∀ s, P (Json.str s))
    (hnum : ∀ q, P (Json.num q)) (hbool : ∀ b, P (Json.bool b))
    (harr : ∀ xs, (∀ x ∈ xs, P x) → P (Json.arr xs))
    (hobj : ∀ fs, (∀ kv ∈ fs, P kv.2) → P (Json.obj fs)) :
    ∀ j, P j
  | Json.null => hnull
  | Json.str s => hstr s
  | Json.num q => hnum q
  | Json.bool b => hbool b
  | Json.arr xs => harr xs (fun x hx =>
      Json.inductOn hnull hstr hnum hbool harr hobj x)
  | Json.obj fs => hobj fs (fun kv hkv =>
      Json.inductOn hnull hstr hnum hbool harr hobj kv.2)
termination_by j => sizeOf j
decreasing_by
  · have h1 : sizeOf x < sizeOf xs := List.sizeOf_lt_of_mem hx
    simp only [Json.arr.sizeOf_spec]
    omega
  · have h1 : sizeOf kv < sizeOf fs := List.sizeOf_lt_of_mem hkv
    have h2 : sizeOf kv.2 < sizeOf kv := by
      obtain ⟨k, v⟩ := kv
      simp only [Prod.mk.sizeOf_spec]
      omega
    simp only [Json.obj.sizeOf_spec]
    omega

lemma objLookup_setField_self (fs : JFields) (k : String) (v : Json) :
    objLookup (setField fs k v) k = some v := by
  induction fs with
  | nil => simp [setField, objLookup]
  | cons kv tl ih =>
      obtain ⟨k', v'⟩ := kv
      by_cases h : k' = k
      · simp [setField, objLookup, h]
      · simp [setField, objLookup, h, ih]

lemma objLookup_append (l1 l2 : JFields) (k : String) :
    objLookup (l1 ++ l2) k
      = match objLookup l1 k with
        | some v => some v
        | none => objLookup l2 k := by
  induction l1 with
  | nil => simp [objLookup]
  | cons kv tl ih =>
      obtain ⟨k', v'⟩ := kv
      by_cases h : k' = k
      · simp [objLookup, h]
      · simp [objLookup, h, ih]

lemma objLookup_eq_none_iff_any (fs : JFields) (k : String) :
    objLookup fs k = none ↔ fs.any (fun kv => kv.1 == k) = false := by
  induction fs with
  | nil => simp [objLookup]
  | cons kv tl ih =>
      obtain ⟨k', v'⟩ := kv
      by_cases h : k' = k
      · simp [objLookup, h]
      · simp [objLookup, h, ih]

lemma objLookup_map_merge (old new : JFields) (k : String) :
    objLookup (old.map (fun kv =>
        match objLookup new kv.1 with
        | some v => (kv.1, v)
        | none => kv)) k
      = match objLookup old k with
        | some v => some ((objLookup new k).getD v)
        | none => none := by
  induction old with
  | nil => simp [objLookup]
  | cons kv tl ih =>
      obtain ⟨k', v'⟩ := kv
      by_cases h : k' = k
      · subst h
        cases hn : objLookup new k' <;> simp [objLookup, hn]
      · cases hn : objLookup new k' <;> simp [objLookup, h, hn, ih]

lemma objLookup_filter_key (l : JFields) (q : String × Json → Bool) (k : String)
    (hq : ∀ kv ∈ l, kv.1 = k → q kv = true) :
    objLookup (l.filter q) k = objLookup l k := by
  induction l with
  | nil => rfl
  | cons kv tl ih =>
      obtain ⟨k', v'⟩ := kv
      have ihtl := ih (fun kv hkv hk => hq kv (List.mem_cons_of_mem _ hkv) hk)
      by_cases h : k' = k
      · subst h
        have hkeep : q (k', v') = true := hq _ (List.mem_cons_self _ _) rfl
        simp [List.filter_cons, hkeep, objLookup]
      · cases hqv : q (k', v')
        · simp [List.filter_cons, hqv, objLookup, h, ihtl]
        · simp [List.filter_cons, hqv, objLookup, h, ihtl]

/-- The key fact behind merge-preserves-id: after `newData.UUID = w` and the
merge `{ ...old, ...newData }`, the `UUID` field of the result is `w`,
whatever `old` and `newData` held before. -/
lemma objLookup_mergeFields_setField (old new : JFields) (w : Json) :
    objLookup (mergeFields old (setField new "UUID" w)) "UUID" = some w := by
  have hnew : objLookup (setField new "UUID" w) "UUID" = some w :=
    objLookup_setField_self new "UUID" w
  unfold mergeFields
  rw [objLookup_append]
  cases hold : objLookup old "UUID" with
  | some v =>
      rw [objLookup_map_merge]
      simp [hold, hnew]
  | none =>
      rw [objLookup_map_merge]
      simp only [hold]
      have hany : old.any (fun kv' => kv'.1 == "UUID") = false :=
        (objLookup_eq_none_iff_any old "UUID").mp hold
      rw [objLookup_filter_key]
      · exact hnew
      · intro kv _ hk
        simp [hk, hany]

lemma matchesUUID_false_of_existsMatch_false (j : Json) (u : String)
    (h : existsMatch j u = false) : matchesUUID j u = false := by
  cases j with
  | obj fs =>
      have h2 : (matchesUUID (Json.obj fs) u || existsMatchFields fs u) = false := by
        simpa [existsMatch] using h
      exact (Bool.or_eq_false_iff.mp h2).1
  | null => simp [matchesUUID, uuidOf]
  | str a => simp [matchesUUID, uuidOf]
  | num a => simp [matchesUUID, uuidOf]
  | bool a => simp [matchesUUID, uuidOf]
  | arr xs => simp [matchesUUID, uuidOf]

lemma updateArrayRec_congr (u : String) (nf : JFields) (l : List Json)
    (ih : ∀ x ∈ l, updateDataRecursively x u nf
        = specReplaceFirst (fun y => matchesUUID y u) (mergeNode u nf) x) :
    updateArrayRec l u nf
      = specReplaceFirstArray (fun y => matchesUUID y u) (mergeNode u nf) l := by
  induction l with
  | nil => simp [updateArrayRec, specReplaceFirstArray]
  | cons x tl ihl =>
      have hx := ih x (List.mem_cons_self x tl)
      have htl := ihl (fun y hy => ih y (List.mem_cons_of_mem x hy))
      by_cases hm : matchesUUID x u = true
      · cases x with
        | obj fs =>
            simp [updateArrayRec, specReplaceFirstArray, specReplaceFirst, hm]
        | null => simp [matchesUUID, uuidOf] at hm
        | str a => simp [matchesUUID, uuidOf] at hm
        | num a => simp [matchesUUID, uuidOf] at hm
        | bool a => simp [matchesUUID, uuidOf] at hm
        | arr xs => simp [matchesUUID, uuidOf] at hm
      · simp [updateArrayRec, specReplaceFirstArray, hm, hx, htl]

lemma updateFieldsRec_congr (u : String) (nf : JFields) (l : JFields)
    (ih : ∀ kv ∈ l, updateDataRecursively kv.2 u nf
        = specReplaceFirst (fun y => matchesUUID y u) (mergeNode u nf) kv.2) :
    updateFieldsRec l u nf
      = specReplaceFirstFields (fun y => matchesUUID y u) (mergeNode u nf) l := by
  induction l with
  | nil => simp [updateFieldsRec, specReplaceFirstFields]
  | cons kv tl ihl =>
      obtain ⟨k, v⟩ := kv
      have hv := ih (k, v) (List.mem_cons_self _ tl)
      have htl := ihl (fun kv' hkv' => ih kv' (List.mem_cons_of_mem _ hkv'))
      simp [updateFieldsRec, specReplaceFirstFields, hv, htl]

/-- `updateDataRecursively` is exactly the generic first-match replacement
of the spec, specialised to the UUID test and the id-preserving merge: it
modifies only the first node in document order whose `UUID` field equals
the searched id and leaves every other node unchanged. -/
lemma updateDataRecursively_eq_spec (u : String) (nf : JFields) :
    ∀ j, updateDataRecursively j u nf
      = specReplaceFirst (fun y => matchesUUID y u) (mergeNode u nf) j := by
  intro j
  induction j using Json.inductOn with
  | hnull => simp [updateDataRecursively, specReplaceFirst, matchesUUID, uuidOf]
  | hstr a => simp [updateDataRecursively, specReplaceFirst, matchesUUID, uuidOf]
  | hnum a => simp [updateDataRecursively, specReplaceFirst, matchesUUID, uuidOf]
  | hbool a => simp [updateDataRecursively, specReplaceFirst, matchesUUID, uuidOf]
  | harr xs ih =>
      simp [updateDataRecursively, specReplaceFirst, updateArrayRec_congr u nf xs ih]
  | hobj fs ih =>
      by_cases hm : matchesUUID (Json.obj fs) u = true
      · simp [updateDataRecursively, specReplaceFirst, hm, mergeNode]
      · simp [updateDataRecursively, specReplaceFirst, hm,
              updateFieldsRec_congr u nf fs ih]

lemma arrayRec_no_match (u : String) (nf : JFields) (l : List Json)
    (ih : ∀ x ∈ l, existsMatch x u = false →
        findDataRecursively x u = none ∧ updateDataRecursively x u nf = (x, false))
    (h : existsMatchArray l u = false) :
    findArrayRec l u = none ∧ updateArrayRec l u nf = (l, false) := by
  induction l with
  | nil => simp [findArrayRec, updateArrayRec]
  | cons x tl ihl =>
      have h2 : existsMatch x u = false ∧ existsMatchArray tl u = false := by
        simpa [existsMatchArray, Bool.or_eq_false_iff] using h
      have hx := ih x (List.mem_cons_self x tl) h2.1
      have htl := ihl (fun y hy hh => ih y (List.mem_cons_of_mem x hy) hh) h2.2
      have hm : matchesUUID x u = false :=
        matchesUUID_false_of_existsMatch_false x u h2.1
      simp [findArrayRec, updateArrayRec, hm, hx.1, hx.2, htl.1, htl.2]

lemma fieldsRec_no_match (u : String) (nf : JFields) (l : JFields)
    (ih : ∀ kv ∈ l, existsMatch kv.2 u = false →
        findDataRecursively kv.2 u = none
        ∧ updateDataRecursively kv.2 u nf = (kv.2, false))
    (h : existsMatchFields l u = false) :
    findFieldsRec l u = none ∧ updateFieldsRec l u nf = (l, false) := by
  induction l with
  | nil => simp [findFieldsRec, updateFieldsRec]
  | cons kv tl ihl =>
      obtain ⟨k, v⟩ := kv
      have h2 : existsMatch v u = false ∧ existsMatchFields tl u = false := by
        simpa [existsMatchFields, Bool.or_eq_false_iff] using h
      have hv := ih (k, v) (List.mem_cons_self _ tl) h2.1
      have htl := ihl (fun kv' hkv' hh => ih kv' (List.mem_cons_of_mem _ hkv') hh) h2.2
      simp [findFieldsRec, updateFieldsRec, hv.1, hv.2, htl.1, htl.2]

/-- When no node of the tree has the searched `UUID`, the recursive search
returns nothing and the recursive update returns the tree unchanged with
`found = false`. -/
lemma no_match_find_update (u : String) (nf : JFields) :
    ∀ j, existsMatch j u = false →
      findDataRecursively j u = none ∧ updateDataRecursively j u nf = (j, false) := by
  intro j
  induction j using Json.inductOn with
  | hnull => intro h; simp [findDataRecursively, updateDataRecursively]
  | hstr a => intro h; simp [findDataRecursively, updateDataRecursively]
  | hnum a => intro h; simp [findDataRecursively, updateDataRecursively]
  | hbool a => intro h; simp [findDataRecursively, updateDataRecursively]
  | harr xs ih =>
      intro h
      have h2 : existsMatchArray xs u = false := by simpa [existsMatch] using h
      have hr := arrayRec_no_match u nf xs ih h2
      simp [findDataRecursively, updateDataRecursively, hr.1, hr.2]
  | hobj fs ih =>
      intro h
      have h2 : matchesUUID (Json.obj fs) u = false ∧ existsMatchFields fs u = false := by
        simpa [existsMatch, Bool.or_eq_false_iff] using h
      have hr := fieldsRec_no_match u nf fs ih h2.2
      simp [findDataRecursively, updateDataRecursively, h2.1, hr.1, hr.2]

/-- C3: `updateDataRecursively` is the first-match-only replacement — for
every document, searched id and incoming record (even one that omits or
mismatches the identifier), only the first node in document order whose
`UUID` equals the id is replaced, all other nodes are unchanged, and the
merged node's `UUID` field always equals the searched id, because the
merge forces `newData.UUID = uuid` before merging. -/
theorem updateObjectData_merge_preserves_uuid :
    (∀ (data : Json) (uuid : String) (rec : JFields),
        updateDataRecursively data uuid rec
          = specReplaceFirst (fun j => matchesUUID j uuid) (mergeNode uuid rec) data)
    ∧ (∀ (fs rec : JFields) (uuid : String),
        objLookup (mergeFields fs (setField rec "UUID" (Json.str uuid))) "UUID"
          = some (Json.str uuid)) := by
  constructor
  · intro data uuid rec
    exact updateDataRecursively_eq_spec uuid rec data
  · intro fs rec uuid
    exact objLookup_mergeFields_setField fs rec (Json.str uuid)

/-- C7: a stale id is benign — if no node of the in-memory document has
the id, `getObjectData` returns `null` and `updateObjectData` is a no-op
that leaves the document, the dirty set and the pending flag unchanged
(and, being total functions of the state, neither operation can throw). -/
theorem stale_id_noop :
    ∀ (s : SyncState) (u : String) (rec : JFields) (now : Nat),
      existsMatch s.data u = false →
        getObjectDataM s u = none
        ∧ updateObjectDataM s u rec now = (s, none) := by
  intro s u rec now h
  obtain ⟨l, p, c, lt, bt, sv, ss, d, r⟩ := s
  have hm : matchesUUID d u = false :=
    matchesUUID_false_of_existsMatch_false d u h
  have hfu := no_match_find_update u rec d h
  cases l with
  | false => simp [getObjectDataM, updateObjectDataM]
  | true =>
      refine ⟨by simp [getObjectDataM, hm, hfu.1], ?_⟩
      by_cases hr : u ∈ r
      · simp [updateObjectDataM, hr, hfu.2]
      · simp [updateObjectDataM, hr]

theorem stale_id_noop_witness :
    existsMatch smallDocState.data "ghost" = false
    ∧ smallDocState.registered.contains "ghost" = true
    ∧ getObjectDataM smallDocState "ghost" = none
    ∧ updateObjectDataM smallDocState "ghost" [("Title", Json.str "x")] 0
        = (smallDocState, none) := by
  have h := stale_id_noop smallDocState "ghost" [("Title", Json.str "x")] 0 (by decide)
  exact ⟨by decide, by decide, h.1, h.2⟩

end Journify
